import Mathlib

/-!
Verification development for the MWA archive_processing repository.

The definitions below are a shallow embedding of the batch-deletion pipeline
(`src/delete_processor.py`, `src/delete_repository.py`, `src/repository.py`),
the staging client (`core/mwa_archiving.py`) and the observation-processing
engine worker loop
(`src/archive_processing/core/generic_observation_processor.py`).

Conventions used throughout:
* SQL `NULL`-able columns are `Option` values (`none` = NULL).
* Timestamps (`NOW()`) are abstract `Nat` values passed in as a parameter.
* Database tables are lists of row structures; an SQL UPDATE is a `List.map`
  applying the row-level transformation expressed by its WHERE clause.
* A Python function that can raise is embedded with an explicit outcome
  (`Except`, or an `Option String` / `PyOutcome` component of the result).
* External collaborators (object storage, the validation webservice, the
  staging daemon, the network socket) are oracles passed in as parameters.
* `ORDER BY filename` clauses are not modelled: every property stated below
  is invariant under reordering of query results.
-/

/-- Python truthiness of an `Optional[int]`: `None` and `0` are falsy.
Used for the `if filetype_id:` tests in `delete_repository.py` and
`delete_processor.py`. -/
def pyTruthy : Option Nat → Bool
  | none => false
  | some n => n != 0

/-- A row of the `data_files` catalog table (the columns used by the deletion
pipeline: `observation_num`, `filename`, `filetype`, `location`, `bucket`,
`folder`, `remote_archived`, `deleted_timestamp`). -/
structure DataFileRow where
  observation_num : Nat
  filename : String
  filetype : Nat
  location : Nat
  bucket : String
  folder : Option String
  remote_archived : Bool
  deleted_timestamp : Option Nat
deriving DecidableEq, Repr

/-- A row of the `mwa_setting` table (columns used by `set_obs_id_to_deleted`). -/
structure MwaSettingRow where
  starttime : Nat
  deleted : Bool
  deleted_timestamp : Option Nat
deriving DecidableEq, Repr

/-- A row of the `deletion_requests` table (columns used by
`set_delete_request_to_actioned`). -/
structure DeletionRequestRow where
  id : Nat
  filetype_id : Option Nat
  cancelled_datetime : Option Nat
  approved_datetime : Option Nat
  actioned_datetime : Option Nat
deriving DecidableEq, Repr

/-- `MWAFileTypeFlags.MWA_PPD_FILE.value` from `mwa_utils.py`. -/
def MWA_PPD_FILE : Nat := 14

/-- `CONCAT_WS('', folder, filename)`: `CONCAT_WS` skips SQL NULL arguments,
so a NULL folder contributes nothing. -/
def concat_ws_key (r : DataFileRow) : String := (r.folder.getD "") ++ r.filename

/-- The row set selected by the WHERE clause of
`DeleteRepository.get_not_deleted_obs_data_files_except_ppds`
(`delete_repository.py` lines 160-186).  With a truthy `filetype_id` the
query keeps exactly that filetype (`WHERE filetype = %s`); otherwise it keeps
every filetype except `MWA_PPD_FILE` (`WHERE filetype NOT IN (%s)` with the
PPD value substituted).  Both branches also require the observation number to
match, `remote_archived = True` and `deleted_timestamp IS NULL`. -/
def not_deleted_rows (data_files : List DataFileRow) (obs_id : Nat)
    (filetype_id : Option Nat) : List DataFileRow :=
  if pyTruthy filetype_id then
    data_files.filter (fun r =>
      r.filetype == filetype_id.getD 0 && r.observation_num == obs_id
        && r.remote_archived && r.deleted_timestamp == none)
  else
    data_files.filter (fun r =>
      (r.filetype != MWA_PPD_FILE) && r.observation_num == obs_id
        && r.remote_archived && r.deleted_timestamp == none)

/-- The record produced for each file returned by
`get_not_deleted_obs_data_files_except_ppds` (the SELECT projection:
location, bucket, key, filename). -/
structure ObsFileInfo where
  location : Nat
  bucket : String
  key : String
  filename : String
deriving DecidableEq, Repr

/-- `DeleteRepository.get_not_deleted_obs_data_files_except_ppds`:
the SELECT projection applied to the rows kept by the WHERE clause. -/
def get_not_deleted_obs_data_files_except_ppds (data_files : List DataFileRow)
    (obs_id : Nat) (filetype_id : Option Nat) : List ObsFileInfo :=
  (not_deleted_rows data_files obs_id filetype_id).map
    (fun r => ⟨r.location, r.bucket, concat_ws_key r, r.filename⟩)

/-- A GPUBOX (filetype 8) row used in concrete instantiations. -/
def gpuboxRow : DataFileRow :=
  ⟨1234567890, "1234567890_20230101_gpubox01_00.fits", 8, 2, "mwaingest-12345",
    none, true, none⟩

/-- A PPD (filetype 14) row used in concrete instantiations. -/
def ppdRow : DataFileRow :=
  ⟨1234567890, "1234567890_metafits_ppds.fits", 14, 2, "mwaingest-12345",
    none, true, none⟩

/-!
### Repository write operations (`repository.py`, `delete_repository.py`)
-/

/-- `Repository.run_sql_update` (`repository.py` lines 124-152): in dry-run
mode it only logs and returns without executing any SQL; otherwise it
executes the UPDATE (here: applies the UPDATE's effect `applySql` to the
table) inside a transaction and commits. -/
def run_sql_update {δ : Type} (dry_run : Bool) (applySql : δ → δ) (db : δ) : δ :=
  if dry_run then db else applySql db

/-- `Repository.run_function_in_transaction` (`repository.py` lines 154-186):
in dry-run mode it only logs and returns.  Otherwise it opens a transaction
and first runs `fun(*args)` (the object-storage delete call, embedded as the
`Except` value `f`); only if that returns does it mogrify and execute the
UPDATE with the returned params.  If `fun` raises, the transaction context
manager rolls back — nothing was executed — and the exception propagates.

Result: (database state after the call, exception propagated out (if any),
whether `fun` — the storage call — was actually invoked). -/
def run_function_in_transaction {π δ : Type} (dry_run : Bool)
    (applySql : π → δ → δ) (f : Except String π) (db : δ) :
    δ × Option String × Bool :=
  if dry_run then (db, none, false)
  else
    match f with
    | .error e => (db, some e, true)
    | .ok p => (applySql p db, none, true)

/-- Row-level effect of the UPDATE in `DeleteRepository.update_files_to_deleted`
(`delete_repository.py` lines 218-222):
`SET deleted_timestamp = NOW() WHERE deleted_timestamp IS NULL AND
filename = ANY(%s) AND observation_num = ANY(%s)`. -/
def markFileDeleted (now : Nat) (filenames : List String) (obsids : List Nat)
    (r : DataFileRow) : DataFileRow :=
  if r.deleted_timestamp == none && filenames.contains r.filename
      && obsids.contains r.observation_num then
    { r with deleted_timestamp := some now }
  else r

/-- The table-level effect of the `update_files_to_deleted` UPDATE, given the
`(deleted_filenames, obsids_list)` params returned by the delete function. -/
def applyUpdateFilesToDeleted (now : Nat) (params : List String × List Nat)
    (data_files : List DataFileRow) : List DataFileRow :=
  data_files.map (markFileDeleted now params.1 params.2)

/-- `DeleteRepository.update_files_to_deleted` (`delete_repository.py` lines
201-224): builds the guarded UPDATE and hands it, together with the delete
function (embedded as its outcome `delete_result`: either the
`(deleted_filenames, obsids_list)` pair it returns, or the exception it
raises), to `run_function_in_transaction`. -/
def update_files_to_deleted (dry_run : Bool) (now : Nat)
    (delete_result : Except String (List String × List Nat))
    (data_files : List DataFileRow) :
    List DataFileRow × Option String × Bool :=
  run_function_in_transaction dry_run (applyUpdateFilesToDeleted now)
    delete_result data_files

/-- Row-level effect of the UPDATE in `DeleteRepository.set_obs_id_to_deleted`
(`delete_repository.py` lines 235-239): `SET deleted_timestamp = NOW(),
deleted = TRUE WHERE deleted_timestamp IS NULL AND starttime = %s`. -/
def markObsDeleted (now : Nat) (obs_id : Nat) (r : MwaSettingRow) : MwaSettingRow :=
  if r.deleted_timestamp == none && r.starttime == obs_id then
    { r with deleted_timestamp := some now, deleted := true }
  else r

/-- `DeleteRepository.set_obs_id_to_deleted`: runs the guarded UPDATE through
`run_sql_update`. -/
def set_obs_id_to_deleted (dry_run : Bool) (now : Nat) (obs_id : Nat)
    (mwa_setting : List MwaSettingRow) : List MwaSettingRow :=
  run_sql_update dry_run (fun t => t.map (markObsDeleted now obs_id)) mwa_setting

/-- Row-level effect of the UPDATE in
`DeleteRepository.set_delete_request_to_actioned` (`delete_repository.py`
lines 253-256): `SET actioned_datetime = NOW() WHERE actioned_datetime IS
NULL AND id = %s`. -/
def markActioned (now : Nat) (request_id : Nat) (r : DeletionRequestRow) :
    DeletionRequestRow :=
  if r.actioned_datetime == none && r.id == request_id then
    { r with actioned_datetime := some now }
  else r

/-- `DeleteRepository.set_delete_request_to_actioned`: runs the guarded
UPDATE through `run_sql_update`. -/
def set_delete_request_to_actioned (dry_run : Bool) (now : Nat)
    (request_id : Nat) (deletion_requests : List DeletionRequestRow) :
    List DeletionRequestRow :=
  run_sql_update dry_run (fun t => t.map (markActioned now request_id))
    deletion_requests

/-!
### The deletion pipeline (`delete_processor.py`)

The object-storage side of `_bucket_delete_keys` (boto3 with its bounded
retry) is external; it is embedded as an oracle giving, per
`(location, bucket, keys)` call, either the `(deleted_filenames, obsids_list)`
pair `_bucket_delete_keys` returns or the exception it (re-)raises.
-/

/-- Outcome of a Python call that may `raise` or `sys.exit`. -/
inductive PyOutcome where
  | normal
  | raised (e : String)
  | exited (code : Nat)
deriving DecidableEq, Repr

/-- `locations` from `mwa_utils.py`. -/
def locations : List (Nat × String) := [(2, "acacia_mwaingest"), (3, "banksia"), (4, "acacia_mwa")]

/-- The connection phase of `_batch_delete_objects` (`delete_processor.py`
lines 151-179): `match locations[location]` accepts `acacia_mwa` and
`banksia` and raises for anything else (including location 2,
`acacia_mwaingest`, which falls to the `case _` branch, and unknown location
ids, whose dict lookup raises a `KeyError`; both are re-raised). -/
def connectLocation (location : Nat) : Option Unit :=
  match locations.lookup location with
  | some "acacia_mwa" => some ()
  | some "banksia" => some ()
  | _ => none

/-- Result of one `_batch_delete_objects` call: the `data_files` table after
the call, whether the object-storage delete call was actually invoked, and
the control outcome. -/
structure BatchResult where
  data_files : List DataFileRow
  storage_call_made : Bool
  outcome : PyOutcome
deriving DecidableEq, Repr

/-- `DeleteProcessor._batch_delete_objects` (`delete_processor.py` lines
131-189): if the terminate flag is set, `sys.exit(0)` before doing anything;
then connect to the location (raising on failure); in dry-run mode log and
return before invoking the storage delete or `update_files_to_deleted`;
otherwise run `update_files_to_deleted` with `_bucket_delete_keys` (embedded
as its outcome `storage_result`). -/
def batch_delete_objects (dry_run terminate : Bool) (now : Nat)
    (storage_result : Except String (List String × List Nat))
    (location : Nat) (_bucket : String) (_keys : List String)
    (data_files : List DataFileRow) : BatchResult :=
  if terminate then ⟨data_files, false, .exited 0⟩
  else
    match connectLocation location with
    | none => ⟨data_files, false, .raised "could not connect"⟩
    | some _ =>
      if dry_run then ⟨data_files, false, .normal⟩
      else
        match update_files_to_deleted dry_run now storage_result data_files with
        | (db, some e, made) => ⟨db, made, .raised e⟩
        | (db, none, made) => ⟨db, made, .normal⟩

/-- The per-bucket batching loop of `DeleteProcessor._process_file_structure`
(`delete_processor.py` lines 300-323), returning the successive key lists
handed to `_batch_delete_objects`: keys are appended to `keys_to_delete` and
a counter incremented; when the counter reaches `batch_size` the batch is
issued and both reset; any remaining keys are issued as a final batch
(guarded by `if keys_to_delete:`, so an empty remainder issues no call).
The `counter` argument equals `acc.length` at every call site. -/
def batchLoop (batchSize : Nat) : List String → List String → Nat → List (List String)
  | [], acc, _ => if acc.isEmpty then [] else [acc]
  | k :: ks, acc, counter =>
    if counter + 1 == batchSize then
      (acc ++ [k]) :: batchLoop batchSize ks [] 0
    else
      batchLoop batchSize ks (acc ++ [k]) (counter + 1)

/-- The sequence of `_batch_delete_objects` calls issued for one bucket's key
set (Python iterates a `set`, whose order is unspecified; `keys` is one
enumeration of it, and every property proved below is order-independent). -/
def process_bucket_batches (batchSize : Nat) (keys : List String) : List (List String) :=
  batchLoop batchSize keys [] 0

/-- A storage-delete call trace entry: (location, bucket, batch of keys). -/
def StorageCall : Type := Nat × String × List String

/-- Runs the batches of one bucket through `_batch_delete_objects` in order,
threading the catalog and recording each storage call actually made; an
exception from a batch propagates (aborting the remaining batches, as in the
source, where the exception leaves `_process_file_structure` entirely).
The `terminate` flag is `false` throughout (no signal received). -/
def runBatches (dry_run : Bool) (now : Nat)
    (storage : Nat → String → List String → Except String (List String × List Nat))
    (location : Nat) (bucket : String) :
    List (List String) → List DataFileRow →
    List DataFileRow × List StorageCall × Option String
  | [], db => (db, [], none)
  | b :: rest, db =>
    match batch_delete_objects dry_run false now (storage location bucket b)
        location bucket b db with
    | ⟨db1, made, out⟩ =>
      let calls : List StorageCall := if made then [(location, bucket, b)] else []
      match out with
      | .raised e => (db1, calls, some e)
      | _ =>
        match runBatches dry_run now storage location bucket rest db1 with
        | (db2, cs, r) => (db2, calls ++ cs, r)

/-- The bucket loop of `_process_file_structure`: each bucket's key set is
batched with `process_bucket_batches` and run through `runBatches`. -/
def runBuckets (dry_run : Bool) (batchSize now : Nat)
    (storage : Nat → String → List String → Except String (List String × List Nat))
    (location : Nat) :
    List (String × List String) → List DataFileRow →
    List DataFileRow × List StorageCall × Option String
  | [], db => (db, [], none)
  | (bucket, keys) :: rest, db =>
    match runBatches dry_run now storage location bucket
        (process_bucket_batches batchSize keys) db with
    | (db1, cs, some e) => (db1, cs, some e)
    | (db1, cs, none) =>
      match runBuckets dry_run batchSize now storage location rest db1 with
      | (db2, cs2, r) => (db2, cs ++ cs2, r)

/-- `DeleteProcessor._process_file_structure` (`delete_processor.py` lines
285-323) over the `files[location][bucket] = keys` structure (embedded as an
association list; the `time.sleep` calls for locations 2 and 4 have no
modelled effect). -/
def process_file_structure (dry_run : Bool) (batchSize now : Nat)
    (storage : Nat → String → List String → Except String (List String × List Nat)) :
    List (Nat × List (String × List String)) → List DataFileRow →
    List DataFileRow × List StorageCall × Option String
  | [], db => (db, [], none)
  | (location, buckets) :: rest, db =>
    match runBuckets dry_run batchSize now storage location buckets db with
    | (db1, cs, some e) => (db1, cs, some e)
    | (db1, cs, none) =>
      match process_file_structure dry_run batchSize now storage rest db1 with
      | (db2, cs2, r) => (db2, cs ++ cs2, r)

/-!
### Discovery (`_generate_data_structures`) and review (`_review_delete_requests`)
-/

/-- Adding a key to a Python `set` of keys (`files[location][bucket].add(key)`):
a duplicate leaves the set unchanged.  The set is embedded as a
duplicate-free list in insertion order. -/
def addKey (keys : List String) (key : String) : List String :=
  if keys.contains key then keys else keys ++ [key]

/-- Insert into the inner `defaultdict(set)` keyed by bucket. -/
def addToBuckets : List (String × List String) → String → String → List (String × List String)
  | [], bucket, key => [(bucket, [key])]
  | (b, ks) :: rest, bucket, key =>
    if b == bucket then (b, addKey ks key) :: rest
    else (b, ks) :: addToBuckets rest bucket key

/-- Insert into the outer `defaultdict(lambda: defaultdict(set))` keyed by
location: `files[file["location"]][file["bucket"]].add(file["key"])`. -/
def addFile : List (Nat × List (String × List String)) → Nat → String → String →
    List (Nat × List (String × List String))
  | [], location, bucket, key => [(location, [(bucket, [key])])]
  | (l, bs) :: rest, location, bucket, key =>
    if l == location then (l, addToBuckets bs bucket key) :: rest
    else (l, bs) :: addFile rest location bucket key

/-- Add every file of one observation's candidate list to the files structure
(the inner `for file in obs_files` loop). -/
def addObsFiles (files : List (Nat × List (String × List String)))
    (obs_files : List ObsFileInfo) : List (Nat × List (String × List String)) :=
  obs_files.foldl (fun fs f => addFile fs f.location f.bucket f.key) files

/-- Result of `_generate_data_structures`: control outcome (`exited 0` when
validation fails without `--force`), the two data structures, and the trace
of `validate_obsids` webservice calls (one entry per call, holding the
argument list). -/
structure DiscoveryResult where
  outcome : PyOutcome
  files : List (Nat × List (String × List String))
  delete_requests : List (Nat × List Nat)
  validate_calls : List (List Nat)
deriving DecidableEq, Repr

/-- The request loop of `DeleteProcessor._generate_data_structures`
(`delete_processor.py` lines 237-281).  Per delete request: fetch its
`filetype_id` and obs_ids, call `validate_obsids` once on the whole obs_id
list; if ineligible ids came back and `--force` was not given, log an error
and `sys.exit(0)`; with `--force`, log a warning and continue.  Then every
obs_id is appended to the request's entry (even with zero files) and each
candidate file is added to the files structure. -/
def generateGo (force : Bool) (validate : List Nat → List Nat)
    (filetypeOf : Nat → Option Nat) (obsIdsOf : Nat → List Nat)
    (data_files : List DataFileRow) :
    List Nat → List (Nat × List (String × List String)) →
    List (Nat × List Nat) → List (List Nat) → DiscoveryResult
  | [], files, drs, calls => ⟨.normal, files, drs, calls⟩
  | id :: rest, files, drs, calls =>
    let filetype_id := filetypeOf id
    let obs_ids := obsIdsOf id
    let invalid_obs_ids := validate obs_ids
    let calls1 := calls ++ [obs_ids]
    if !invalid_obs_ids.isEmpty && !force then
      ⟨.exited 0, files, drs, calls1⟩
    else
      generateGo force validate filetypeOf obsIdsOf data_files rest
        (obs_ids.foldl
          (fun fs obs => addObsFiles fs
            (get_not_deleted_obs_data_files_except_ppds data_files obs filetype_id))
          files)
        (drs ++ [(id, obs_ids)]) calls1

/-- `DeleteProcessor._generate_data_structures` applied to the eligible
request ids (the result of `get_delete_requests`: approved, not cancelled,
not yet actioned — that SELECT is not re-modelled here).  The repository
lookups `get_filetype_id_for_delete_request`, `get_obs_ids_for_delete_request`
and the `validate_obsids` webservice are read-only oracles. -/
def generate_data_structures (force : Bool) (validate : List Nat → List Nat)
    (filetypeOf : Nat → Option Nat) (obsIdsOf : Nat → List Nat)
    (data_files : List DataFileRow) (request_ids : List Nat) : DiscoveryResult :=
  generateGo force validate filetypeOf obsIdsOf data_files request_ids [] [] []

/-- The catalog writes issued by `_review_delete_requests`, recorded as a
trace: `set_obs_id_to_deleted(obs_id)` and
`set_delete_request_to_actioned(request_id)` calls. -/
inductive ReviewAction where
  | setObsDeleted (obs_id : Nat)
  | setActioned (request_id : Nat)
deriving DecidableEq, Repr

/-- The obs_id loop of `_review_delete_requests` (`delete_processor.py` lines
355-382) for one request, with the terminate flag false: re-fetch each
obs_id's still-undeleted non-PPD files (scoped to the request's filetype);
a non-empty list records the obs_id as failed, an empty list triggers
`set_obs_id_to_deleted` unless a filetype was specified.  Returns (failed
obs_ids in order, write actions in order). -/
def reviewObs (data_files : List DataFileRow) (filetype_id : Option Nat) :
    List Nat → List Nat × List ReviewAction
  | [] => ([], [])
  | obs :: rest =>
    let obs_files := get_not_deleted_obs_data_files_except_ppds data_files obs filetype_id
    match reviewObs data_files filetype_id rest with
    | (failed, acts) =>
      if 0 < obs_files.length then (obs :: failed, acts)
      else if pyTruthy filetype_id then (failed, acts)
      else (failed, .setObsDeleted obs :: acts)

/-- One iteration of the request loop of `_review_delete_requests`: after the
obs_id loop, if no observation reported missing files the request is passed
to `set_delete_request_to_actioned`.  Returns (failed obs_ids, write actions,
whether the request was actioned). -/
def review_one (data_files : List DataFileRow) (filetypeOf : Nat → Option Nat)
    (id : Nat) (obss : List Nat) : List Nat × List ReviewAction × Bool :=
  match reviewObs data_files (filetypeOf id) obss with
  | (failed, acts) =>
    if failed.isEmpty then (failed, acts ++ [.setActioned id], true)
    else (failed, acts, false)

/-- `DeleteProcessor._review_delete_requests` (`delete_processor.py` lines
325-390) over the `delete_requests` structure: returns
(`num_actioned_delete_requests`, `failed_delete_requests` as an association
list in insertion order, the trace of catalog writes).  `data_files` is
fixed during review: the review phase only writes to `mwa_setting` and
`deletion_requests`. -/
def review_delete_requests (data_files : List DataFileRow)
    (filetypeOf : Nat → Option Nat) :
    List (Nat × List Nat) → Nat × List (Nat × List Nat) × List ReviewAction
  | [] => (0, [], [])
  | (id, obss) :: rest =>
    match review_one data_files filetypeOf id obss with
    | (failed, acts, actioned) =>
      match review_delete_requests data_files filetypeOf rest with
      | (n, fmap, tr) =>
        ((if actioned then 1 else 0) + n,
         (if failed.isEmpty then fmap else (id, failed) :: fmap),
         acts ++ tr)

/-- Result of one whole `DeleteProcessor.run()`. -/
structure RunResult where
  outcome : PyOutcome
  data_files : List DataFileRow
  storage_calls : List StorageCall
  num_actioned : Nat
  failed_delete_requests : List (Nat × List Nat)
  validate_calls : List (List Nat)
  review_actions : List ReviewAction

/-- `DeleteProcessor.run()` (`delete_processor.py` lines 420-440):
discovery, then `_process_file_structure`, then `_review_delete_requests`.
A `sys.exit` during discovery ends the run before any batch is processed;
an exception from a batch propagates out of `run`. -/
def delete_processor_run (force dry_run : Bool) (batchSize now : Nat)
    (validate : List Nat → List Nat) (filetypeOf : Nat → Option Nat)
    (obsIdsOf : Nat → List Nat)
    (storage : Nat → String → List String → Except String (List String × List Nat))
    (request_ids : List Nat) (data_files : List DataFileRow) : RunResult :=
  let disc := generate_data_structures force validate filetypeOf obsIdsOf
    data_files request_ids
  match disc.outcome with
  | .exited c => ⟨.exited c, data_files, [], 0, [], disc.validate_calls, []⟩
  | .raised e => ⟨.raised e, data_files, [], 0, [], disc.validate_calls, []⟩
  | .normal =>
    match process_file_structure dry_run batchSize now storage disc.files data_files with
    | (db1, calls, some e) => ⟨.raised e, db1, calls, 0, [], disc.validate_calls, []⟩
    | (db1, calls, none) =>
      match review_delete_requests db1 filetypeOf disc.delete_requests with
      | (n, fmap, acts) => ⟨.normal, db1, calls, n, fmap, disc.validate_calls, acts⟩

/-!
### Staging client (`core/mwa_archiving.py`,
`GenericObservationProcessor.stage_files`)
-/

/-- `os.path.split(f)[1]` (POSIX): the part of the path after the last
slash — the characters of the reversed string up to the first slash. -/
def basename (s : String) : String :=
  ⟨(s.data.reverse.takeWhile (fun c => c != '/')).reverse⟩

/-- A JSON string literal for a filename, as produced by `json.dumps` for a
string needing no escaping (no quote, backslash, control or non-ASCII
character — real filenames here; `json.dumps` escapes anything else and
`ensure_ascii=True` keeps the output ASCII either way). -/
def jsonStringLit (s : String) : String := "\"" ++ s ++ "\""

/-- The `json.dumps` rendering of the name list with the default `", "`
separator. -/
def jsonListInner : List String → String
  | [] => ""
  | [n] => jsonStringLit n
  | n :: rest => jsonStringLit n ++ ", " ++ jsonListInner rest

/-- `json.dumps({'files': [...]})`: `{"files": [...]}` (braces written as
escapes). -/
def jsonFilesPayload (names : List String) : String :=
  "\x7b\"files\": [" ++ jsonListInner names ++ "]\x7d"

/-- UTF-8 encoding of one character, as `str.encode()` produces. -/
def utf8EncodeChar (c : Char) : List Nat :=
  let n := c.toNat
  if n < 128 then [n]
  else if n < 2048 then [192 + n / 64, 128 + n % 64]
  else if n < 65536 then [224 + n / 4096, 128 + n / 64 % 64, 128 + n % 64]
  else [240 + n / 262144, 128 + n / 4096 % 64, 128 + n / 64 % 64, 128 + n % 64]

/-- `s.encode()`: the UTF-8 bytes of a string. -/
def utf8Bytes (s : String) : List Nat := s.data.flatMap utf8EncodeChar

/-- `struct.pack('>I', n)`: 4 bytes, big-endian (defined for `n < 2^32`;
`struct.pack` raises on overflow). -/
def pack32be (n : Nat) : List Nat :=
  [n / 16777216 % 256, n / 65536 % 256, n / 256 % 256, n % 256]

/-- Big-endian reading of 4 bytes (inverse of `pack32be` below `2^32`). -/
def unpack32be : List Nat → Nat
  | [b0, b1, b2, b3] => b0 * 16777216 + b1 * 65536 + b2 * 256 + b3
  | _ => 0

/-- `struct.unpack('!H', two bytes)`: big-endian unsigned 16-bit. -/
def unpack16be (b0 b1 : Nat) : Nat := b0 * 256 + b1

/-- `pawsey_stage_files` (`core/mwa_archiving.py` lines 11-45): strips any
path prefix from each filename, builds the length-prefixed message
`pack('>I', len(json_output)) ++ json_output.encode()`, sends it over one TCP
connection, reads 2 bytes as a big-endian unsigned 16-bit exit code and
returns it.  Every exception along the way (overflow in `struct.pack`,
socket errors, a short read breaking `struct.unpack`) is re-raised as the
single wrapped kind `Other error staging data: ...`.  The socket exchange is
the oracle `net`: the two status bytes received, or the error raised.
Result: the message bytes sent and the exit code, or the wrapped error. -/
def pawsey_stage_files (file_list : List String)
    (net : Except String (Nat × Nat)) : Except String (List Nat × Nat) :=
  let json_output := jsonFilesPayload (file_list.map basename)
  if 4294967296 ≤ json_output.length then
    .error "Other error staging data: struct error"
  else
    match net with
    | .error e => .error ("Other error staging data: " ++ e)
    | .ok (b0, b1) =>
      .ok (pack32be json_output.length ++ utf8Bytes json_output, unpack16be b0 b1)

/-- Result of one staging attempt inside `stage_files`: the exit code
returned by `pawsey_stage_files`, or the exception it raised. -/
inductive StageAttempt where
  | code (c : Nat)
  | exn (e : String)
deriving DecidableEq, Repr

/-- Observable outcome of `GenericObservationProcessor.stage_files`:
the boolean it returns, how many staging attempts were actually made, and
whether the final `Staging failed too many times` error was logged (it is
guarded by `if not self.terminate`). -/
structure StageOutcome where
  success : Bool
  attemptsMade : Nat
  loggedExhaustion : Bool
deriving DecidableEq, Repr

/-- The retry loop of `GenericObservationProcessor.stage_files`
(`generic_observation_processor.py` lines 71-129), `attempt`-indexed from 1.
`oracle k` is what attempt `k` of `pawsey_stage_files` produces and
`terminate k` the value of the process-wide terminate flag read at the head
of iteration `k` (and again by the exhaustion-log guard).  `fuel` counts the
loop iterations still allowed by `attempts <= retry_attempts`, so
`fuel + attempt = retry_attempts + 1` throughout; each failed attempt sleeps
`backoff_seconds` (timing is not modelled) and retries. -/
def stageGo (oracle : Nat → StageAttempt) (terminate : Nat → Bool) :
    Nat → Nat → StageOutcome
  | 0, attempt => ⟨false, attempt - 1, !terminate attempt⟩
  | fuel + 1, attempt =>
    if terminate attempt then ⟨false, attempt - 1, false⟩
    else
      match oracle attempt with
      | .code 0 => ⟨true, attempt, false⟩
      | _ => stageGo oracle terminate fuel (attempt + 1)

/-- `GenericObservationProcessor.stage_files`: run the retry loop from
attempt 1 with `retry_attempts` iterations allowed. -/
def stage_files (oracle : Nat → StageAttempt) (terminate : Nat → Bool)
    (retry_attempts : Nat) : StageOutcome :=
  stageGo oracle terminate retry_attempts 1

/-- Attempt `k` is actually performed by `stage_files`: it is within the
retry bound, the terminate flag was still clear at every loop head up to and
including `k`, and no earlier attempt had already returned exit code 0. -/
def attemptMade (oracle : Nat → StageAttempt) (terminate : Nat → Bool)
    (retry_attempts k : Nat) : Prop :=
  1 ≤ k ∧ k ≤ retry_attempts ∧ terminate k = false ∧
    ∀ j, 1 ≤ j → j < k → terminate j = false ∧ oracle j ≠ .code 0

instance (oracle : Nat → StageAttempt) (terminate : Nat → Bool)
    (retry_attempts k : Nat) :
    Decidable (attemptMade oracle terminate retry_attempts k) :=
  decidable_of_iff
    (1 ≤ k ∧ k ≤ retry_attempts ∧ terminate k = false ∧
      ∀ j < k, 1 ≤ j → terminate j = false ∧ oracle j ≠ .code 0) (by
    unfold attemptMade
    constructor
    · rintro ⟨h1, h2, h3, h4⟩
      exact ⟨h1, h2, h3, fun j hj1 hj2 => h4 j hj2 hj1⟩
    · rintro ⟨h1, h2, h3, h4⟩
      exact ⟨h1, h2, h3, fun j hj2 hj1 => h4 j hj1 hj2⟩)

/-!
### Observation worker loop
(`GenericObservationProcessor.observation_consumer`)
-/

/-- Result of one pipeline stage call: the boolean it returned, or the
exception it raised. -/
inductive StageResult where
  | ok (b : Bool)
  | exn (e : String)
deriving DecidableEq, Repr

/-- Oracle for one dequeued observation: what `process_one_observation`, the
inner-queue `observation.process()`, and `end_of_observation` each produce
for it. -/
structure ObsOracle where
  processOne : StageResult
  itemsProcess : StageResult
  endOfObs : StageResult
deriving DecidableEq, Repr

/-- The body of the `while` loop of `observation_consumer`
(`generic_observation_processor.py` lines 343-370) for one observation:
the nested conditionals updating the good/failed counters, with any
exception from the three stages caught by the surrounding
`try`/`except` which only logs it.  Note the source increments no counter
on the exception path, and none either when `observation.process()` returns
`False`.  Returns (good increment, failed increment, logged exception). -/
def consume_one (implements_per_item : Bool) (o : ObsOracle) :
    Nat × Nat × Option String :=
  match o.processOne with
  | .exn e => (0, 0, some e)
  | .ok false => (0, 1, none)
  | .ok true =>
    if implements_per_item then
      match o.itemsProcess with
      | .exn e => (0, 0, some e)
      | .ok false => (0, 0, none)
      | .ok true =>
        match o.endOfObs with
        | .exn e => (0, 0, some e)
        | .ok false => (0, 1, none)
        | .ok true => (1, 0, none)
    else (1, 0, none)

/-- Observable result of one worker's `observation_consumer` run. -/
structure ConsumerResult where
  good : Nat
  failed : Nat
  loggedExceptions : List (Nat × String)
  processedAll : Bool
deriving DecidableEq, Repr

/-- `GenericObservationProcessor.observation_consumer`
(`generic_observation_processor.py` lines 320-392) with the terminate flag
false throughout: dequeue observations until `queue.Empty`, process each via
`consume_one` (exceptions logged with the observation's obs_id), call
`task_done`, clean up, and continue with the next item; the empty-queue
condition is caught and the worker returns `True` (`processedAll`). -/
def observation_consumer (implements_per_item : Bool) :
    List (Nat × ObsOracle) → ConsumerResult
  | [] => ⟨0, 0, [], true⟩
  | (obs_id, o) :: rest =>
    match consume_one implements_per_item o with
    | (g, f, ex) =>
      match observation_consumer implements_per_item rest with
      | ⟨g2, f2, logs, done⟩ =>
        ⟨g + g2, f + f2,
          (match ex with | some e => [(obs_id, e)] | none => []) ++ logs, done⟩

/-!
### Helper lemmas
-/

/-- A row whose `deleted_timestamp` is already set is untouched by the
`update_files_to_deleted` UPDATE's row transformation. -/
theorem markFileDeleted_of_deleted (now t : Nat) (fns : List String)
    (obs : List Nat) (r : DataFileRow) (h : r.deleted_timestamp = some t) :
    markFileDeleted now fns obs r = r := by
  simp [markFileDeleted, h]

/-- Applying the `update_files_to_deleted` row transformation twice (with any
second timestamp) equals applying it once. -/
theorem markFileDeleted_idem (now now2 : Nat) (fns : List String)
    (obs : List Nat) (r : DataFileRow) :
    markFileDeleted now2 fns obs (markFileDeleted now fns obs r)
      = markFileDeleted now fns obs r := by
  by_cases h : (r.deleted_timestamp == none && fns.contains r.filename
      && obs.contains r.observation_num) = true
  · have h1 : markFileDeleted now fns obs r
        = { r with deleted_timestamp := some now } := by
      unfold markFileDeleted; exact if_pos h
    rw [h1]; unfold markFileDeleted
    exact if_neg (by simp)
  · have h1 : markFileDeleted now fns obs r = r := by
      unfold markFileDeleted; exact if_neg h
    rw [h1]; unfold markFileDeleted
    exact if_neg h

/-- A row whose `deleted_timestamp` is already set is untouched by the
`set_obs_id_to_deleted` UPDATE's row transformation. -/
theorem markObsDeleted_of_deleted (now t obs_id : Nat) (r : MwaSettingRow)
    (h : r.deleted_timestamp = some t) : markObsDeleted now obs_id r = r := by
  simp [markObsDeleted, h]

/-- Applying the `set_obs_id_to_deleted` row transformation twice equals
applying it once. -/
theorem markObsDeleted_idem (now now2 obs_id : Nat) (r : MwaSettingRow) :
    markObsDeleted now2 obs_id (markObsDeleted now obs_id r)
      = markObsDeleted now obs_id r := by
  by_cases h : (r.deleted_timestamp == none && r.starttime == obs_id) = true
  · simp [markObsDeleted, h]
  · simp [markObsDeleted, h]

/-- A row whose `actioned_datetime` is already set is untouched by the
`set_delete_request_to_actioned` UPDATE's row transformation. -/
theorem markActioned_of_actioned (now t request_id : Nat)
    (r : DeletionRequestRow) (h : r.actioned_datetime = some t) :
    markActioned now request_id r = r := by
  simp [markActioned, h]

/-- Applying the `set_delete_request_to_actioned` row transformation twice
equals applying it once. -/
theorem markActioned_idem (now now2 request_id : Nat) (r : DeletionRequestRow) :
    markActioned now2 request_id (markActioned now request_id r)
      = markActioned now request_id r := by
  by_cases h : (r.actioned_datetime == none && r.id == request_id) = true
  · simp [markActioned, h]
  · simp [markActioned, h]

/-!
### C1 — atomicity of delete-and-record
-/

/-- Claim C1: for every batch passed to `update_files_to_deleted`, if the
object-storage delete function raises, the transaction is rolled back — the
`data_files` table is returned unchanged (every row that had
`deleted_timestamp` NULL still has it NULL), the exception propagates, and
the storage call was indeed made inside the transaction; the catalog UPDATE
is applied exactly when the storage call returns success, and then only with
the filenames/obsids the storage call confirmed. -/
theorem update_files_to_deleted_atomic (now : Nat) (db : List DataFileRow)
    (f : Except String (List String × List Nat)) (e : String)
    (hf : f = Except.error e) :
    update_files_to_deleted false now f db = (db, some e, true)
    ∧ (∀ fns obs, update_files_to_deleted false now (Except.ok (fns, obs)) db
        = (applyUpdateFilesToDeleted now (fns, obs) db, none, true)) := by
  subst hf
  exact ⟨rfl, fun fns obs => rfl⟩

/-- Witness for C1 at a concrete batch: a raising delete function leaves the
catalog unchanged and propagates the error. -/
theorem update_files_to_deleted_atomic_witness :
    update_files_to_deleted false 5 (Except.error "storage down") [gpuboxRow]
      = ([gpuboxRow], some "storage down", true) :=
  (update_files_to_deleted_atomic 5 [gpuboxRow] (Except.error "storage down")
    "storage down" rfl).1

/-!
### C10 — write-once deletion timestamps
-/

/-- Claim C10: every mutating catalog statement issued by `DeleteRepository`
guards on its target column being unset, so a row whose deletion/actioned
timestamp is already recorded is left unchanged by a re-run, and re-running
each whole UPDATE (with a different `NOW()`) is idempotent — a recorded
timestamp is never overwritten. -/
theorem delete_repository_write_once (now now2 t : Nat) (fns : List String)
    (obs : List Nat) (obs_id request_id : Nat) (r1 : DataFileRow)
    (r2 : MwaSettingRow) (r3 : DeletionRequestRow)
    (h1 : r1.deleted_timestamp = some t) (h2 : r2.deleted_timestamp = some t)
    (h3 : r3.actioned_datetime = some t) (df : List DataFileRow)
    (mwa : List MwaSettingRow) (drs : List DeletionRequestRow) :
    markFileDeleted now fns obs r1 = r1
    ∧ markObsDeleted now obs_id r2 = r2
    ∧ markActioned now request_id r3 = r3
    ∧ applyUpdateFilesToDeleted now2 (fns, obs)
        (applyUpdateFilesToDeleted now (fns, obs) df)
        = applyUpdateFilesToDeleted now (fns, obs) df
    ∧ set_obs_id_to_deleted false now2 obs_id
        (set_obs_id_to_deleted false now obs_id mwa)
        = set_obs_id_to_deleted false now obs_id mwa
    ∧ set_delete_request_to_actioned false now2 request_id
        (set_delete_request_to_actioned false now request_id drs)
        = set_delete_request_to_actioned false now request_id drs := by
  refine ⟨markFileDeleted_of_deleted now t fns obs r1 h1,
    markObsDeleted_of_deleted now t obs_id r2 h2,
    markActioned_of_actioned now t request_id r3 h3, ?_, ?_, ?_⟩
  · simp only [applyUpdateFilesToDeleted, List.map_map]
    exact List.map_congr_left fun r _ => markFileDeleted_idem now now2 fns obs r
  · simp only [set_obs_id_to_deleted, run_sql_update, if_neg (by decide : ¬False),
      Bool.false_eq_true, if_false, List.map_map]
    exact List.map_congr_left fun r _ => markObsDeleted_idem now now2 obs_id r
  · simp only [set_delete_request_to_actioned, run_sql_update,
      Bool.false_eq_true, if_false, List.map_map]
    exact List.map_congr_left fun r _ => markActioned_idem now now2 request_id r

/-- Witness for C10 at concrete rows with already-recorded timestamps. -/
theorem delete_repository_write_once_witness :
    markFileDeleted 9 ["1234567890_x.fits"] [1234567890]
        ⟨1234567890, "1234567890_x.fits", 8, 2, "b", none, true, some 3⟩
      = ⟨1234567890, "1234567890_x.fits", 8, 2, "b", none, true, some 3⟩ :=
  (delete_repository_write_once 9 10 3 ["1234567890_x.fits"] [1234567890]
    1234567890 1
    ⟨1234567890, "1234567890_x.fits", 8, 2, "b", none, true, some 3⟩
    ⟨1234567890, true, some 3⟩ ⟨1, none, none, some 1, some 3⟩
    rfl rfl rfl [] [] []).1

/-!
### C6 — PPD exclusion
-/

/-- Counterexample for C6 as stated: when a delete request carries
`filetype_id = 14` (`MWA_PPD_FILE`), the filetype-scoped branch of
`get_not_deleted_obs_data_files_except_ppds` (`WHERE filetype = %s`) returns
the PPD file — the claim that PPD files are never included, "including when
the request carries a filetype_id", is false at this input. -/
theorem ppd_included_when_filetype_is_ppd :
    not_deleted_rows [ppdRow] 1234567890 (some MWA_PPD_FILE) = [ppdRow]
    ∧ ppdRow.filetype = MWA_PPD_FILE
    ∧ get_not_deleted_obs_data_files_except_ppds [ppdRow] 1234567890
        (some MWA_PPD_FILE)
      = [⟨2, "mwaingest-12345", "1234567890_metafits_ppds.fits",
          "1234567890_metafits_ppds.fits"⟩] := by
  refine ⟨?_, rfl, ?_⟩ <;> rfl

/-- Claim C6 (amended): files of type `MWA_PPD_FILE` never appear in the
candidate lists returned by `get_not_deleted_obs_data_files_except_ppds`
whenever the request's `filetype_id` is not itself `MWA_PPD_FILE` — with no
(or a falsy) `filetype_id` the query excludes PPDs explicitly, and with a
truthy `filetype_id` it returns only rows of exactly that filetype, so PPD
files reach the batch-deletion step only in the degenerate case
`filetype_id = 14`. -/
theorem ppd_excluded_unless_requested (data_files : List DataFileRow)
    (obs_id : Nat) (filetype_id : Option Nat)
    (h : filetype_id ≠ some MWA_PPD_FILE) :
    ∀ r ∈ not_deleted_rows data_files obs_id filetype_id,
      r.filetype ≠ MWA_PPD_FILE := by
  intro r hr
  unfold not_deleted_rows at hr
  by_cases ht : pyTruthy filetype_id = true
  · rw [if_pos ht] at hr
    have hmem := List.of_mem_filter hr
    have hft : r.filetype = filetype_id.getD 0 := by
      have h2 := ((Bool.and_eq_true _ _).mp ((Bool.and_eq_true _ _).mp
        ((Bool.and_eq_true _ _).mp hmem).1).1).1
      simpa using h2
    cases filetype_id with
    | none => simp [pyTruthy] at ht
    | some ft =>
      intro hc
      apply h
      simp only [Option.getD] at hft
      rw [hft] at hc
      rw [hc]
  · rw [if_neg ht] at hr
    have hmem := List.of_mem_filter hr
    have := (Bool.and_eq_true _ _).mp ((Bool.and_eq_true _ _).mp
      ((Bool.and_eq_true _ _).mp hmem).1).1
    intro hc
    have hne := this.1
    rw [hc] at hne
    simp at hne

/-- Witness for the amended C6 at a concrete query: a GPUBOX row returned by
the filetype-scoped query is not a PPD file. -/
theorem ppd_excluded_unless_requested_witness :
    gpuboxRow.filetype ≠ MWA_PPD_FILE :=
  ppd_excluded_unless_requested [gpuboxRow] 1234567890 (some 8)
    (by decide) gpuboxRow (by decide)

/-!
### C4 — dry-run purity
-/

/-- Claim C4: with `dry_run` true no mutating call executes —
`run_sql_update` and `run_function_in_transaction` return without executing
any SQL (and without invoking the wrapped storage function),
`_batch_delete_objects` returns before invoking the storage delete or
`update_files_to_deleted`, and a whole `_process_file_structure` pass leaves
the catalog unchanged and makes zero storage delete calls (discovery queries
are read-only and unaffected). -/
theorem dry_run_purity :
    (∀ (δ : Type) (applySql : δ → δ) (db : δ),
      run_sql_update true applySql db = db)
    ∧ (∀ (π δ : Type) (applySql : π → δ → δ) (f : Except String π) (db : δ),
      run_function_in_transaction true applySql f db = (db, none, false))
    ∧ (∀ now storage_result location bucket keys db,
      (batch_delete_objects true false now storage_result location bucket
          keys db).data_files = db
      ∧ (batch_delete_objects true false now storage_result location bucket
          keys db).storage_call_made = false)
    ∧ (∀ batchSize now storage files db,
      (process_file_structure true batchSize now storage files db).1 = db
      ∧ (process_file_structure true batchSize now storage files db).2.1 = []) := by
  have hbatch : ∀ now storage_result location bucket keys db,
      (batch_delete_objects true false now storage_result location bucket
          keys db).data_files = db
      ∧ (batch_delete_objects true false now storage_result location bucket
          keys db).storage_call_made = false := by
    intro now storage_result location bucket keys db
    unfold batch_delete_objects
    cases connectLocation location <;> simp
  have hbatches : ∀ now storage location bucket batches db,
      (runBatches true now storage location bucket batches db).1 = db
      ∧ (runBatches true now storage location bucket batches db).2.1 = [] := by
    intro now storage location bucket batches
    induction batches with
    | nil => intro db; exact ⟨rfl, rfl⟩
    | cons b rest ih =>
      intro db
      have hb := hbatch now (storage location bucket b) location bucket b db
      unfold runBatches
      cases hr : batch_delete_objects true false now (storage location bucket b)
          location bucket b db with
      | mk db1 made out =>
        have hdb1 : db1 = db := by rw [hr] at hb; exact hb.1
        have hmade : made = false := by rw [hr] at hb; exact hb.2
        rw [hdb1, hmade]
        cases out with
        | raised e => simp
        | normal => simpa using ih db
        | exited c => simpa using ih db
  have hbuckets : ∀ batchSize now storage location buckets db,
      (runBuckets true batchSize now storage location buckets db).1 = db
      ∧ (runBuckets true batchSize now storage location buckets db).2.1 = [] := by
    intro batchSize now storage location buckets
    induction buckets with
    | nil => intro db; exact ⟨rfl, rfl⟩
    | cons bk rest ih =>
      intro db
      cases bk with
      | mk bucket keys =>
        have hb := hbatches now storage location bucket
          (process_bucket_batches batchSize keys) db
        unfold runBuckets
        cases hr : runBatches true now storage location bucket
            (process_bucket_batches batchSize keys) db with
        | mk db1 p =>
          cases p with
          | mk cs r =>
            have hdb1 : db1 = db := by rw [hr] at hb; exact hb.1
            have hcs : cs = [] := by rw [hr] at hb; exact hb.2
            rw [hdb1, hcs]
            cases r with
            | some e => simp
            | none => simpa using ih db
  refine ⟨fun δ applySql db => rfl, fun π δ applySql f db => rfl, hbatch, ?_⟩
  intro batchSize now storage files
  induction files with
  | nil => intro db; exact ⟨rfl, rfl⟩
  | cons lb rest ih =>
    intro db
    cases lb with
    | mk location buckets =>
      have hb := hbuckets batchSize now storage location buckets db
      unfold process_file_structure
      cases hr : runBuckets true batchSize now storage location buckets db with
      | mk db1 p =>
        cases p with
        | mk cs r =>
          have hdb1 : db1 = db := by rw [hr] at hb; exact hb.1
          have hcs : cs = [] := by rw [hr] at hb; exact hb.2
          rw [hdb1, hcs]
          cases r with
          | some e => simp
          | none => simpa using ih db

/-!
### C3 — batch sizing
-/

/-- Concatenating the batches produced by the per-bucket loop gives back the
key sequence: every key lands in exactly one `_batch_delete_objects` call. -/
theorem batchLoop_flatten (bs : Nat) :
    ∀ (ks acc : List String), acc.length < bs →
      (batchLoop bs ks acc acc.length).flatten = acc ++ ks := by
  intro ks
  induction ks with
  | nil =>
    intro acc _
    by_cases ha : acc = []
    · subst ha; rfl
    · simp [batchLoop, ha]
  | cons k rest ih =>
    intro acc hlt
    by_cases hc : acc.length + 1 = bs
    · have hcb : (acc.length + 1 == bs) = true := by simpa using hc
      have h0 : (0 : Nat) < bs := by omega
      have h0' : ([] : List String).length < bs := by simpa using h0
      rw [batchLoop, if_pos hcb]
      have := ih [] h0'
      simp only [List.length_nil] at this
      simp [this]
    · have hcb : ¬((acc.length + 1 == bs) = true) := by simpa using hc
      rw [batchLoop, if_neg hcb]
      have hlen : (acc ++ [k]).length = acc.length + 1 := by simp
      have hlt2 : (acc ++ [k]).length < bs := by omega
      have := ih (acc ++ [k]) hlt2
      rw [hlen] at this
      rw [this]
      simp

/-- No call issued by the per-bucket loop carries more than `batch_size`
keys. -/
theorem batchLoop_le (bs : Nat) :
    ∀ (ks acc : List String), acc.length < bs →
      ∀ c ∈ batchLoop bs ks acc acc.length, c.length ≤ bs := by
  intro ks
  induction ks with
  | nil =>
    intro acc hlt c hc
    by_cases ha : acc = []
    · subst ha; simp [batchLoop] at hc
    · simp [batchLoop, ha] at hc
      subst hc; omega
  | cons k rest ih =>
    intro acc hlt c hc
    by_cases hcond : acc.length + 1 = bs
    · have hcb : (acc.length + 1 == bs) = true := by simpa using hcond
      rw [batchLoop, if_pos hcb] at hc
      rcases List.mem_cons.mp hc with h | h
      · subst h; simp; omega
      · have h0' : ([] : List String).length < bs := by simp; omega
        have := ih [] h0'
        simp only [List.length_nil] at this
        exact this c h
    · have hcb : ¬((acc.length + 1 == bs) = true) := by simpa using hcond
      rw [batchLoop, if_neg hcb] at hc
      have hlen : (acc ++ [k]).length = acc.length + 1 := by simp
      have hlt2 : (acc ++ [k]).length < bs := by omega
      have := ih (acc ++ [k]) hlt2
      rw [hlen] at this
      exact this c hc

/-- The per-bucket loop never issues an empty call: in particular a bucket
whose keys divide evenly into full batches triggers no extra call for the
empty remainder. -/
theorem batchLoop_ne_nil (bs : Nat) :
    ∀ (ks acc : List String), acc.length < bs →
      ∀ c ∈ batchLoop bs ks acc acc.length, c ≠ [] := by
  intro ks
  induction ks with
  | nil =>
    intro acc _ c hc
    by_cases ha : acc = []
    · subst ha; simp [batchLoop] at hc
    · simp [batchLoop, ha] at hc
      subst hc; exact ha
  | cons k rest ih =>
    intro acc hlt c hc
    by_cases hcond : acc.length + 1 = bs
    · have hcb : (acc.length + 1 == bs) = true := by simpa using hcond
      rw [batchLoop, if_pos hcb] at hc
      rcases List.mem_cons.mp hc with h | h
      · subst h; simp
      · have h0' : ([] : List String).length < bs := by simp; omega
        have := ih [] h0'
        simp only [List.length_nil] at this
        exact this c h
    · have hcb : ¬((acc.length + 1 == bs) = true) := by simpa using hcond
      rw [batchLoop, if_neg hcb] at hc
      have hlen : (acc ++ [k]).length = acc.length + 1 := by simp
      have hlt2 : (acc ++ [k]).length < bs := by omega
      have := ih (acc ++ [k]) hlt2
      rw [hlen] at this
      exact this c hc

/-- Filling the accumulator up to exactly `batch_size` flushes one batch and
restarts the loop on the remaining keys. -/
theorem batchLoop_fill (bs : Nat) :
    ∀ (xs ys acc : List String), acc.length + xs.length = bs → xs ≠ [] →
      batchLoop bs (xs ++ ys) acc acc.length
        = (acc ++ xs) :: batchLoop bs ys [] 0 := by
  intro xs
  induction xs with
  | nil => intro ys acc _ hne; exact absurd rfl hne
  | cons x rest ih =>
    intro ys acc hlen _
    by_cases hr : rest = []
    · subst hr
      have hc : acc.length + 1 = bs := by simpa using hlen
      have hcb : (acc.length + 1 == bs) = true := by simpa using hc
      rw [List.cons_append, batchLoop, if_pos hcb]
      simp
    · have hrl : 1 ≤ rest.length := by
        cases rest with
        | nil => exact absurd rfl hr
        | cons a l => simp
      have hc : ¬(acc.length + 1 = bs) := by
        simp only [List.length_cons] at hlen; omega
      have hcb : ¬((acc.length + 1 == bs) = true) := by simpa using hc
      rw [List.cons_append, batchLoop, if_neg hcb]
      have hlen2 : (acc ++ [x]).length = acc.length + 1 := by simp
      have hsum : (acc ++ [x]).length + rest.length = bs := by
        simp only [List.length_cons] at hlen; omega
      have := ih ys (acc ++ [x]) hsum hr
      rw [hlen2] at this
      rw [this]
      simp

/-- A single leftover key forms one final one-key batch. -/
theorem batchLoop_single (bs : Nat) (k : String) :
    batchLoop bs [k] [] 0 = [[k]] := by
  by_cases hc : (0 + 1 == bs) = true
  · rw [batchLoop, if_pos hc]; rfl
  · rw [batchLoop, if_neg hc]; rfl

/-- Claim C3: for a bucket with exactly `batch_size + 1` keys the loop of
`_process_file_structure` issues exactly 2 calls to `_batch_delete_objects`,
the first with exactly `batch_size` keys and the second with exactly 1 key;
in general (for any key set of this bucket) no call receives more than
`batch_size` keys, every key appears in exactly one call (the concatenation
of the calls is the key sequence), and an empty remainder after the last
full batch triggers no extra call. -/
theorem batch_sizing (batchSize : Nat) (keys : List String)
    (h1 : 1 ≤ batchSize) (h2 : keys.length = batchSize + 1) :
    process_bucket_batches batchSize keys
        = [keys.take batchSize, keys.drop batchSize]
    ∧ (keys.take batchSize).length = batchSize
    ∧ (keys.drop batchSize).length = 1
    ∧ (∀ ks : List String, ∀ c ∈ process_bucket_batches batchSize ks,
        c.length ≤ batchSize)
    ∧ (∀ ks : List String, (process_bucket_batches batchSize ks).flatten = ks)
    ∧ (∀ ks : List String, [] ∉ process_bucket_batches batchSize ks) := by
  have htake : (keys.take batchSize).length = batchSize := by
    rw [List.length_take]; omega
  have hdrop : (keys.drop batchSize).length = 1 := by
    rw [List.length_drop]; omega
  have h0 : ([] : List String).length < batchSize := by simp; omega
  refine ⟨?_, htake, hdrop, ?_, ?_, ?_⟩
  · obtain ⟨k, hk⟩ := List.length_eq_one.mp hdrop
    have htne : keys.take batchSize ≠ [] := by
      intro h
      rw [h] at htake
      simp at htake
      omega
    have hsplit : keys = keys.take batchSize ++ keys.drop batchSize :=
      (List.take_append_drop batchSize keys).symm
    have hfill := batchLoop_fill batchSize (keys.take batchSize)
      (keys.drop batchSize) [] (by simpa using htake) htne
    simp only [List.length_nil] at hfill
    unfold process_bucket_batches
    conv_lhs => rw [hsplit]
    rw [hfill, hk, batchLoop_single]
    simp
  · intro ks c hc
    exact batchLoop_le batchSize ks [] h0 c
      (by simpa [process_bucket_batches] using hc)
  · intro ks
    have := batchLoop_flatten batchSize ks [] h0
    simpa [process_bucket_batches] using this
  · intro ks hmem
    exact batchLoop_ne_nil batchSize ks [] h0 [] (by
      simpa [process_bucket_batches] using hmem) rfl

/-- Witness for C3: with `batch_size = 2` and 3 keys the loop issues exactly
the two calls `["a", "b"]` and `["c"]`. -/
theorem batch_sizing_witness :
    process_bucket_batches 2 ["a", "b", "c"] = [["a", "b"], ["c"]] := by
  have h := (batch_sizing 2 ["a", "b", "c"] (by decide) (by decide)).1
  simpa using h

/-!
### C2 — reconciliation completeness
-/

/-- An obs_id lands in the failed list of the review loop exactly when it is
in the request's list and its re-fetched candidate list is non-empty. -/
theorem reviewObs_failed_mem (df : List DataFileRow) (ft : Option Nat) :
    ∀ (obss : List Nat) (obs : Nat),
      obs ∈ (reviewObs df ft obss).1
        ↔ obs ∈ obss
          ∧ get_not_deleted_obs_data_files_except_ppds df obs ft ≠ [] := by
  intro obss
  induction obss with
  | nil => intro obs; simp [reviewObs]
  | cons o rest ih =>
    intro obs
    unfold reviewObs
    cases hrv : reviewObs df ft rest with
    | mk f a =>
      dsimp only
      by_cases hf : 0 < (get_not_deleted_obs_data_files_except_ppds df o ft).length
      · rw [if_pos hf]
        simp only [List.mem_cons]
        constructor
        · rintro (rfl | hx)
          · refine ⟨Or.inl rfl, ?_⟩
            intro hnil
            rw [hnil] at hf
            simp at hf
          · have := (ih obs).mp (by rw [hrv]; exact hx)
            exact ⟨Or.inr this.1, this.2⟩
        · rintro ⟨(rfl | hmem), hne⟩
          · exact Or.inl rfl
          · right
            have := (ih obs).mpr ⟨hmem, hne⟩
            rw [hrv] at this
            exact this
      · have hfe : get_not_deleted_obs_data_files_except_ppds df o ft = [] := by
          cases hq : get_not_deleted_obs_data_files_except_ppds df o ft with
          | nil => rfl
          | cons x l => rw [hq] at hf; simp at hf
        have hsame : obs ∈ f
            ↔ obs ∈ o :: rest
              ∧ get_not_deleted_obs_data_files_except_ppds df obs ft ≠ [] := by
          constructor
          · intro hx
            have := (ih obs).mp (by rw [hrv]; exact hx)
            exact ⟨List.mem_cons_of_mem _ this.1, this.2⟩
          · rintro ⟨hmem, hne⟩
            rcases List.mem_cons.mp hmem with rfl | hmem2
            · exact absurd hfe hne
            · have := (ih obs).mpr ⟨hmem2, hne⟩
              rw [hrv] at this
              exact this
        rw [if_neg hf]
        by_cases hp : pyTruthy ft = true
        · rw [if_pos hp]; exact hsame
        · rw [if_neg hp]; exact hsame

/-- The obs_id loop of the review emits only `set_obs_id_to_deleted` writes,
never a `set_delete_request_to_actioned`. -/
theorem reviewObs_no_actioned (df : List DataFileRow) (ft : Option Nat) :
    ∀ (obss : List Nat) (i : Nat),
      ReviewAction.setActioned i ∉ (reviewObs df ft obss).2 := by
  intro obss
  induction obss with
  | nil => intro i; simp [reviewObs]
  | cons o rest ih =>
    intro i hmem
    unfold reviewObs at hmem
    cases hrv : reviewObs df ft rest with
    | mk f a =>
      rw [hrv] at hmem
      dsimp only at hmem
      have hia : ReviewAction.setActioned i ∉ a := by
        intro hx
        exact ih i (by rw [hrv]; exact hx)
      by_cases hf : 0 < (get_not_deleted_obs_data_files_except_ppds df o ft).length
      · rw [if_pos hf] at hmem
        exact hia hmem
      · rw [if_neg hf] at hmem
        by_cases hp : pyTruthy ft = true
        · rw [if_pos hp] at hmem
          exact hia hmem
        · rw [if_neg hp] at hmem
          rcases List.mem_cons.mp hmem with h | h
          · exact ReviewAction.noConfusion h
          · exact hia h

/-- One review iteration passes its request to
`set_delete_request_to_actioned` exactly when every obs_id of the request
re-fetches an empty candidate list. -/
theorem review_one_actioned_iff (df : List DataFileRow)
    (fo : Nat → Option Nat) (id : Nat) (obss : List Nat) :
    ReviewAction.setActioned id ∈ (review_one df fo id obss).2.1
      ↔ ∀ obs ∈ obss,
          get_not_deleted_obs_data_files_except_ppds df obs (fo id) = [] := by
  unfold review_one
  cases hrv : reviewObs df (fo id) obss with
  | mk failed acts =>
    dsimp only
    by_cases hfe : failed.isEmpty
    · rw [if_pos hfe]
      simp only [List.mem_append, List.mem_singleton]
      constructor
      · intro _ obs hm
        by_contra hne
        have : obs ∈ failed := by
          have := (reviewObs_failed_mem df (fo id) obss obs).mpr ⟨hm, hne⟩
          rw [hrv] at this
          exact this
        rw [List.isEmpty_iff.mp hfe] at this
        simp at this
      · intro _
        exact Or.inr trivial
    · rw [if_neg hfe]
      constructor
      · intro hmem
        exfalso
        exact reviewObs_no_actioned df (fo id) obss id (by rw [hrv]; exact hmem)
      · intro hall
        exfalso
        apply hfe
        rw [List.isEmpty_iff]
        cases hfc : failed with
        | nil => rfl
        | cons x l =>
          exfalso
          have hx : x ∈ (reviewObs df (fo id) obss).1 := by
            rw [hrv, hfc]; exact List.mem_cons_self x l
          have := (reviewObs_failed_mem df (fo id) obss x).mp hx
          exact this.2 (hall x this.1)

/-- Any actioned-write emitted by one review iteration names that
iteration's request id. -/
theorem review_one_actioned_eq (df : List DataFileRow)
    (fo : Nat → Option Nat) (id : Nat) (obss : List Nat) (j : Nat)
    (hj : ReviewAction.setActioned j ∈ (review_one df fo id obss).2.1) :
    j = id := by
  unfold review_one at hj
  cases hrv : reviewObs df (fo id) obss with
  | mk failed acts =>
    rw [hrv] at hj
    dsimp only at hj
    have hna : ReviewAction.setActioned j ∉ acts := by
      intro hx
      exact reviewObs_no_actioned df (fo id) obss j (by rw [hrv]; exact hx)
    by_cases hfe : failed.isEmpty
    · rw [if_pos hfe] at hj
      rcases List.mem_append.mp hj with h | h
      · exact absurd h hna
      · cases List.mem_singleton.mp h
        rfl
    · rw [if_neg hfe] at hj
      exact absurd hj hna

/-- An actioned-write in the review trace names one of the reviewed request
ids. -/
theorem review_trace_actioned_mem (df : List DataFileRow)
    (fo : Nat → Option Nat) :
    ∀ (reqs : List (Nat × List Nat)) (j : Nat),
      ReviewAction.setActioned j ∈ (review_delete_requests df fo reqs).2.2 →
        j ∈ reqs.map Prod.fst := by
  intro reqs
  induction reqs with
  | nil => intro j h; simp [review_delete_requests] at h
  | cons r rest ih =>
    intro j h
    cases r with
    | mk id obss =>
      unfold review_delete_requests at h
      cases hro : review_one df fo id obss with
      | mk failed p =>
        cases p with
        | mk acts actioned =>
          cases hrr : review_delete_requests df fo rest with
          | mk n p2 =>
            cases p2 with
            | mk fmap tr =>
              rw [hro, hrr] at h
              simp only at h
              rcases List.mem_append.mp h with hx | hx
              · have : j = id := review_one_actioned_eq df fo id obss j
                  (by rw [hro]; exact hx)
                simp [this]
              · have := ih j (by rw [hrr]; exact hx)
                simp [this]

/-- A failed-requests entry in the review result names one of the reviewed
request ids. -/
theorem review_failed_mem (df : List DataFileRow) (fo : Nat → Option Nat) :
    ∀ (reqs : List (Nat × List Nat)) (j : Nat) (l : List Nat),
      (j, l) ∈ (review_delete_requests df fo reqs).2.1 →
        j ∈ reqs.map Prod.fst := by
  intro reqs
  induction reqs with
  | nil => intro j l h; simp [review_delete_requests] at h
  | cons r rest ih =>
    intro j l h
    cases r with
    | mk id obss =>
      unfold review_delete_requests at h
      cases hro : review_one df fo id obss with
      | mk failed p =>
        cases p with
        | mk acts actioned =>
          cases hrr : review_delete_requests df fo rest with
          | mk n p2 =>
            cases p2 with
            | mk fmap tr =>
              rw [hro, hrr] at h
              simp only at h
              by_cases hfe : failed.isEmpty
              · rw [if_pos hfe] at h
                have := ih j l (by rw [hrr]; exact h)
                simp [this]
              · rw [if_neg hfe] at h
                rcases List.mem_cons.mp h with hx | hx
                · have : j = id := congrArg Prod.fst hx
                  simp [this]
                · have := ih j l (by rw [hrr]; exact hx)
                  simp [this]

/-- The failed-obs component of one review iteration is exactly the failed
list of its obs_id loop. -/
theorem review_one_failed (df : List DataFileRow) (fo : Nat → Option Nat)
    (id : Nat) (obss : List Nat) :
    (review_one df fo id obss).1 = (reviewObs df (fo id) obss).1 := by
  unfold review_one
  cases hrv : reviewObs df (fo id) obss with
  | mk failed acts =>
    dsimp only
    by_cases hfe : failed.isEmpty
    · rw [if_pos hfe]
    · rw [if_neg hfe]

/-- Claim C2: for every delete request reviewed by `_review_delete_requests`
(request ids being unique, as produced by discovery), the request is passed
to `set_delete_request_to_actioned` iff every one of its obs_ids re-fetches
an empty list of still-undeleted non-PPD files (scoped to the request's
filetype); and every obs_id with a non-empty remaining list is recorded
under its request id in the failed-delete-requests map, the request then not
being actioned. -/
theorem reconciliation_completeness (data_files : List DataFileRow)
    (filetypeOf : Nat → Option Nat) :
    ∀ (reqs : List (Nat × List Nat)) (id : Nat) (obss : List Nat),
      (id, obss) ∈ reqs → (reqs.map Prod.fst).Nodup →
      ((ReviewAction.setActioned id
          ∈ (review_delete_requests data_files filetypeOf reqs).2.2
        ↔ ∀ obs ∈ obss, get_not_deleted_obs_data_files_except_ppds data_files
            obs (filetypeOf id) = [])
      ∧ ∀ obs ∈ obss,
          get_not_deleted_obs_data_files_except_ppds data_files obs
            (filetypeOf id) ≠ [] →
          (∃ l, (id, l) ∈ (review_delete_requests data_files filetypeOf reqs).2.1
            ∧ obs ∈ l)
          ∧ ReviewAction.setActioned id
              ∉ (review_delete_requests data_files filetypeOf reqs).2.2) := by
  intro reqs
  induction reqs with
  | nil => intro id obss hmem _; simp at hmem
  | cons r rest ih =>
    intro id obss hmem hnodup
    cases r with
    | mk id0 obss0 =>
      have hnodup2 : (id0 :: rest.map Prod.fst).Nodup := by
        simpa only [List.map_cons] using hnodup
      have hnd := List.nodup_cons.mp hnodup2
      have hid0 : id0 ∉ rest.map Prod.fst := hnd.1
      have hndrest : (rest.map Prod.fst).Nodup := hnd.2
      unfold review_delete_requests
      cases hro : review_one data_files filetypeOf id0 obss0 with
      | mk failed0 p =>
        cases p with
        | mk acts0 actioned0 =>
          cases hrr : review_delete_requests data_files filetypeOf rest with
          | mk n p2 =>
            cases p2 with
            | mk fmap tr =>
              dsimp only
              rcases List.mem_cons.mp hmem with heq | hmem2
              · have hide : id = id0 := congrArg Prod.fst heq
                have hobse : obss = obss0 := congrArg Prod.snd heq
                subst hide; subst hobse
                have hiff : ReviewAction.setActioned id ∈ acts0 ++ tr
                    ↔ ∀ obs ∈ obss, get_not_deleted_obs_data_files_except_ppds
                        data_files obs (filetypeOf id) = [] := by
                  rw [← review_one_actioned_iff data_files filetypeOf id obss, hro]
                  constructor
                  · intro hx
                    rcases List.mem_append.mp hx with h | h
                    · exact h
                    · exfalso
                      apply hid0
                      exact review_trace_actioned_mem data_files filetypeOf rest
                        id (by rw [hrr]; exact h)
                  · intro hx
                    exact List.mem_append.mpr (Or.inl hx)
                refine ⟨hiff, ?_⟩
                intro obs hobs hne
                have hobsf : obs ∈ failed0 := by
                  have h1 : obs ∈ (reviewObs data_files (filetypeOf id) obss).1 :=
                    (reviewObs_failed_mem data_files (filetypeOf id) obss obs).mpr
                      ⟨hobs, hne⟩
                  have h2 := review_one_failed data_files filetypeOf id obss
                  rw [hro] at h2
                  rw [← h2] at h1
                  exact h1
                have hfne : ¬failed0.isEmpty = true := by
                  intro hx
                  rw [List.isEmpty_iff.mp hx] at hobsf
                  simp at hobsf
                refine ⟨⟨failed0, ?_, hobsf⟩, ?_⟩
                · rw [if_neg hfne]
                  exact List.mem_cons_self _ _
                · intro hx
                  have := hiff.mp hx obs hobs
                  exact hne this
              · have hidr : id ∈ rest.map Prod.fst :=
                  List.mem_map.mpr ⟨(id, obss), hmem2, rfl⟩
                have hidne : id ≠ id0 := by
                  intro hx
                  rw [hx] at hidr
                  exact hid0 hidr
                have hih := ih id obss hmem2 hndrest
                rw [hrr] at hih
                have hnota : ReviewAction.setActioned id ∉ acts0 := by
                  intro hx
                  exact hidne (review_one_actioned_eq data_files filetypeOf
                    id0 obss0 id (by rw [hro]; exact hx))
                have hiff : ReviewAction.setActioned id ∈ acts0 ++ tr
                    ↔ ReviewAction.setActioned id ∈ tr := by
                  constructor
                  · intro hx
                    rcases List.mem_append.mp hx with h | h
                    · exact absurd h hnota
                    · exact h
                  · intro hx
                    exact List.mem_append.mpr (Or.inr hx)
                refine ⟨hiff.trans hih.1, ?_⟩
                intro obs hobs hne
                have h2 := hih.2 obs hobs hne
                refine ⟨?_, ?_⟩
                · obtain ⟨l, hl, hol⟩ := h2.1
                  refine ⟨l, ?_, hol⟩
                  by_cases hfe : failed0.isEmpty
                  · rw [if_pos hfe]; exact hl
                  · rw [if_neg hfe]; exact List.mem_cons_of_mem _ hl
                · intro hx
                  exact h2.2 (hiff.mp hx)

/-- Witness for C2 at a concrete review: with the catalog empty the single
request re-fetches empty lists for its observation and is actioned. -/
theorem reconciliation_completeness_witness :
    ReviewAction.setActioned 7
      ∈ (review_delete_requests [] (fun _ => none) [(7, [1234567890])]).2.2 :=
  (reconciliation_completeness [] (fun _ => none) [(7, [1234567890])] 7
    [1234567890] (by decide) (by decide)).1.mpr (by
      intro obs _
      rfl)

/-!
### C7 — staging retry
-/

/-- With no fuel left (`attempts > retry_attempts`) the loop exits, having
made `attempt - 1` attempts, logging exhaustion unless the terminate flag is
set. -/
theorem stageGo_zero (oracle : Nat → StageAttempt) (terminate : Nat → Bool)
    (a : Nat) : stageGo oracle terminate 0 a = ⟨false, a - 1, !terminate a⟩ :=
  rfl

/-- A set terminate flag at the loop head stops the loop without the
exhaustion log. -/
theorem stageGo_term (oracle : Nat → StageAttempt) (terminate : Nat → Bool)
    (fuel a : Nat) (ht : terminate a = true) :
    stageGo oracle terminate (fuel + 1) a = ⟨false, a - 1, false⟩ := by
  rw [stageGo, if_pos ht]

/-- An attempt returning exit code 0 makes `stage_files` return `True` at
once. -/
theorem stageGo_code_zero (oracle : Nat → StageAttempt) (terminate : Nat → Bool)
    (fuel a : Nat) (ht : terminate a = false) (ho : oracle a = .code 0) :
    stageGo oracle terminate (fuel + 1) a = ⟨true, a, false⟩ := by
  rw [stageGo, if_neg (by simp [ht]), ho]

/-- A failed attempt (non-zero code, or an exception caught by the loop)
backs off and retries. -/
theorem stageGo_fail (oracle : Nat → StageAttempt) (terminate : Nat → Bool)
    (fuel a : Nat) (ht : terminate a = false) (ho : oracle a ≠ .code 0) :
    stageGo oracle terminate (fuel + 1) a
      = stageGo oracle terminate fuel (a + 1) := by
  rw [stageGo, if_neg (by simp [ht])]
  cases hoa : oracle a with
  | code c =>
    cases c with
    | zero => exact absurd hoa ho
    | succ m => rfl
  | exn e => rfl

/-- Invariants of the staging retry loop, for any suffix of the loop
starting at attempt `a` with `fuel` iterations allowed: the count of
attempts made, the success characterization, and the exhaustion-log
behaviour. -/
theorem stageGo_spec (oracle : Nat → StageAttempt) (terminate : Nat → Bool) :
    ∀ (fuel a : Nat), 1 ≤ a →
      (a - 1 ≤ (stageGo oracle terminate fuel a).attemptsMade
        ∧ (stageGo oracle terminate fuel a).attemptsMade ≤ a - 1 + fuel)
      ∧ ((stageGo oracle terminate fuel a).success = true
        ↔ ∃ k, a ≤ k ∧ k < a + fuel ∧ terminate k = false
            ∧ (∀ j, a ≤ j → j < k → terminate j = false ∧ oracle j ≠ .code 0)
            ∧ oracle k = .code 0)
      ∧ ((stageGo oracle terminate fuel a).success = false →
        (stageGo oracle terminate fuel a).loggedExhaustion
          = !terminate ((stageGo oracle terminate fuel a).attemptsMade + 1)) := by
  intro fuel
  induction fuel with
  | zero =>
    intro a ha
    rw [stageGo_zero]
    dsimp only
    refine ⟨⟨le_refl _, by omega⟩, ?_, ?_⟩
    · constructor
      · intro h; simp at h
      · rintro ⟨k, h1, h2, -⟩; omega
    · intro _
      have : a - 1 + 1 = a := by omega
      rw [this]
  | succ fuel ih =>
    intro a ha
    by_cases ht : terminate a = true
    · rw [stageGo_term oracle terminate fuel a ht]
      dsimp only
      refine ⟨⟨le_refl _, by omega⟩, ?_, ?_⟩
      · constructor
        · intro h; simp at h
        · rintro ⟨k, h1, h2, h3, h4, h5⟩
          rcases Nat.eq_or_lt_of_le h1 with rfl | hlt
          · rw [ht] at h3; cases h3
          · have := (h4 a (le_refl a) hlt).1
            rw [ht] at this; cases this
      · intro _
        have : a - 1 + 1 = a := by omega
        rw [this, ht]
        rfl
    · have ht' : terminate a = false := by
        revert ht; cases terminate a <;> simp
      by_cases ho : oracle a = .code 0
      · rw [stageGo_code_zero oracle terminate fuel a ht' ho]
        dsimp only
        refine ⟨⟨by omega, by omega⟩, ?_, ?_⟩
        · constructor
          · intro _
            exact ⟨a, le_refl a, by omega, ht',
              fun j hj1 hj2 => absurd (Nat.lt_of_le_of_lt hj1 hj2)
                (lt_irrefl a), ho⟩
          · intro _; rfl
        · intro h; cases h
      · rw [stageGo_fail oracle terminate fuel a ht' ho]
        have hih := ih (a + 1) (by omega)
        refine ⟨⟨by have := hih.1.1; omega, by have := hih.1.2; omega⟩, ?_, ?_⟩
        · rw [hih.2.1]
          constructor
          · rintro ⟨k, h1, h2, h3, h4, h5⟩
            refine ⟨k, by omega, by omega, h3, ?_, h5⟩
            intro j hj1 hj2
            rcases Nat.eq_or_lt_of_le hj1 with rfl | hlt
            · exact ⟨ht', ho⟩
            · exact h4 j (by omega) hj2
          · rintro ⟨k, h1, h2, h3, h4, h5⟩
            have hka : k ≠ a := by
              intro h
              rw [h] at h5
              exact ho h5
            refine ⟨k, by omega, by omega, h3, ?_, h5⟩
            intro j hj1 hj2
            exact h4 j (by omega) hj2
        · exact hih.2.2

/-- Claim C7: `stage_files` attempts `pawsey_stage_files` at most
`retry_attempts` times (backing off between attempts); it returns `True` iff
one of the attempts actually made returns exit code 0 (an exception from an
attempt is caught and counts as a failure, never propagating); on a `False`
return the `gave up` exhaustion error is logged exactly when the loop did
not stop because the process-wide terminate flag became true. -/
theorem staging_retry (oracle : Nat → StageAttempt) (terminate : Nat → Bool)
    (retry_attempts : Nat) :
    (stage_files oracle terminate retry_attempts).attemptsMade ≤ retry_attempts
    ∧ ((stage_files oracle terminate retry_attempts).success = true
      ↔ ∃ k, attemptMade oracle terminate retry_attempts k
          ∧ oracle k = .code 0)
    ∧ ((stage_files oracle terminate retry_attempts).success = false →
      (stage_files oracle terminate retry_attempts).loggedExhaustion
        = !terminate
            ((stage_files oracle terminate retry_attempts).attemptsMade + 1)) := by
  have h := stageGo_spec oracle terminate retry_attempts 1 (le_refl 1)
  unfold stage_files
  refine ⟨by have := h.1.2; omega, ?_, h.2.2⟩
  rw [h.2.1]
  constructor
  · rintro ⟨k, h1, h2, h3, h4, h5⟩
    exact ⟨k, ⟨h1, by omega, h3, h4⟩, h5⟩
  · rintro ⟨k, ⟨h1, h2, h3, h4⟩, h5⟩
    exact ⟨k, h1, by omega, h3, h4, h5⟩

/-- Witness for C7: an oracle failing on attempt 1 and succeeding on attempt
2 makes `stage_files` return `True` within 3 allowed attempts. -/
theorem staging_retry_witness :
    (stage_files (fun k => if k == 2 then .code 0 else .code 5)
      (fun _ => false) 3).success = true :=
  (staging_retry (fun k => if k == 2 then .code 0 else .code 5)
    (fun _ => false) 3).2.1.mpr ⟨2, by decide, by decide⟩

/-!
### C8 — staging wire protocol
-/

/-- ASCII characters encode to one UTF-8 byte each, so an ASCII string's
byte length equals its character count (`json.dumps` with the default
`ensure_ascii=True` produces ASCII, making `len(json_output)` the byte
length of the encoded payload). -/
theorem utf8_length_ascii :
    ∀ (l : List Char), (∀ c ∈ l, c.toNat < 128) →
      (l.flatMap utf8EncodeChar).length = l.length := by
  intro l
  induction l with
  | nil => intro _; rfl
  | cons c rest ih =>
    intro h
    have hc : c.toNat < 128 := h c (List.mem_cons_self c rest)
    have hrest := ih (fun x hx => h x (List.mem_cons_of_mem c hx))
    simp only [List.flatMap_cons, List.length_append, hrest,
      utf8EncodeChar, if_pos hc, List.length_cons, List.length_nil]
    omega

/-- Characters of an appended string come from one of the parts. -/
theorem ascii_append (a b : String)
    (ha : ∀ c ∈ a.data, c.toNat < 128) (hb : ∀ c ∈ b.data, c.toNat < 128) :
    ∀ c ∈ (a ++ b).data, c.toNat < 128 := by
  intro c hc
  rw [String.data_append] at hc
  rcases List.mem_append.mp hc with h | h
  · exact ha c h
  · exact hb c h

/-- A JSON name list built from ASCII names is ASCII. -/
theorem jsonListInner_ascii :
    ∀ (names : List String), (∀ n ∈ names, ∀ c ∈ n.data, c.toNat < 128) →
      ∀ c ∈ (jsonListInner names).data, c.toNat < 128 := by
  intro names
  induction names with
  | nil => intro _ c hc; simp [jsonListInner] at hc
  | cons n rest ih =>
    intro h
    have hn : ∀ c ∈ n.data, c.toNat < 128 := h n (List.mem_cons_self n rest)
    have hrest := ih (fun x hx => h x (List.mem_cons_of_mem n hx))
    have hq : ∀ c ∈ ("\"" : String).data, c.toNat < 128 := by decide
    have hlit : ∀ c ∈ (jsonStringLit n).data, c.toNat < 128 := by
      unfold jsonStringLit
      exact ascii_append _ _ (ascii_append _ _ hq hn) hq
    cases rest with
    | nil => exact hlit
    | cons m l =>
      unfold jsonListInner
      refine ascii_append _ _ (ascii_append _ _ hlit ?_) hrest
      decide

/-- A payload built from ASCII names is ASCII. -/
theorem jsonFilesPayload_ascii (names : List String)
    (h : ∀ n ∈ names, ∀ c ∈ n.data, c.toNat < 128) :
    ∀ c ∈ (jsonFilesPayload names).data, c.toNat < 128 := by
  unfold jsonFilesPayload
  refine ascii_append _ _ (ascii_append _ _ ?_ (jsonListInner_ascii names h)) ?_
  · decide
  · decide

/-- Claim C8: `pawsey_stage_files` sends exactly one message — a 4-byte
big-endian unsigned integer equal to the byte length of the UTF-8 JSON
payload `\x7b"files": [...]\x7d` followed by that payload, the entries being
the bare basenames of the input (no `/` survives the path strip); it reads
two bytes as a big-endian unsigned 16-bit status code and returns it; and
any exception is re-raised as the single wrapped kind.  The hypotheses are
the ASCII guarantee `ensure_ascii=True` provides for the payload and the
`struct.pack` range. -/
theorem staging_wire_protocol (file_list : List String)
    (net : Except String (Nat × Nat))
    (hascii : ∀ n ∈ file_list.map basename, ∀ c ∈ n.data, c.toNat < 128)
    (hlen : (jsonFilesPayload (file_list.map basename)).length < 4294967296) :
    ((utf8Bytes (jsonFilesPayload (file_list.map basename))).length
      = (jsonFilesPayload (file_list.map basename)).length)
    ∧ (∀ b0 b1, net = .ok (b0, b1) →
        pawsey_stage_files file_list net
          = .ok (pack32be
              ((utf8Bytes (jsonFilesPayload (file_list.map basename))).length)
              ++ utf8Bytes (jsonFilesPayload (file_list.map basename)),
            unpack16be b0 b1))
    ∧ unpack32be (pack32be
        ((utf8Bytes (jsonFilesPayload (file_list.map basename))).length))
      = (utf8Bytes (jsonFilesPayload (file_list.map basename))).length
    ∧ (∀ s : String, ∀ c ∈ (basename s).data, c ≠ '/')
    ∧ (∀ e, net = .error e →
        pawsey_stage_files file_list net
          = .error ("Other error staging data: " ++ e)) := by
  have hascii2 := jsonFilesPayload_ascii (file_list.map basename) hascii
  have hulen : (utf8Bytes (jsonFilesPayload (file_list.map basename))).length
      = (jsonFilesPayload (file_list.map basename)).length := by
    unfold utf8Bytes
    exact utf8_length_ascii _ hascii2
  have hnotlen : ¬(4294967296 ≤ (jsonFilesPayload (file_list.map basename)).length) := by
    omega
  refine ⟨hulen, ?_, ?_, ?_, ?_⟩
  · intro b0 b1 hnet
    subst hnet
    unfold pawsey_stage_files
    rw [if_neg hnotlen, hulen]
  · rw [hulen]
    unfold pack32be unpack32be
    dsimp only
    omega
  · intro s c hc
    unfold basename at hc
    have hc2 : c ∈ (s.data.reverse.takeWhile (fun c => c != '/')) :=
      List.mem_reverse.mp hc
    have := List.mem_takeWhile_imp hc2
    simpa using this
  · intro e hnet
    subst hnet
    unfold pawsey_stage_files
    rw [if_neg hnotlen]

/-- Witness for C8 at a concrete staging call: one file with a path prefix,
server answering status 3. -/
theorem staging_wire_protocol_witness :
    pawsey_stage_files ["path/to/1234567890_1.fits"] (.ok (0, 3))
      = .ok (pack32be
          ((utf8Bytes (jsonFilesPayload
            (["path/to/1234567890_1.fits"].map basename))).length)
          ++ utf8Bytes (jsonFilesPayload
            (["path/to/1234567890_1.fits"].map basename)),
        unpack16be 0 3) :=
  (staging_wire_protocol ["path/to/1234567890_1.fits"] (.ok (0, 3))
    (by decide) (by decide)).2.1 0 3 rfl

/-!
### C9 — worker-loop failure isolation
-/

/-- Counterexample for C9 as stated: an exception from
`process_one_observation` is caught and logged with the obs_id and the
worker finishes the queue normally, but the failed-observations counter
(`stats_obs_failed_errors`) is NOT incremented — the `except` branch only
logs.  The claim's "counted as a failure in the failed-observations counter"
is false at this input. -/
theorem worker_exception_not_counted :
    observation_consumer true
        [(1234567890, ⟨.exn "boom", .ok true, .ok true⟩)]
      = ⟨0, 0, [(1234567890, "boom")], true⟩ := by
  rfl

/-- An exception from the stages leaves both counters untouched (the
`except Exception` branch of the worker loop only logs). -/
theorem consume_one_exn (impl : Bool) (o : ObsOracle) (e : String)
    (h : (consume_one impl o).2.2 = some e) :
    consume_one impl o = (0, 0, some e) := by
  obtain ⟨p1, p2, p3⟩ := o
  unfold consume_one at h ⊢
  cases p1 with
  | exn e2 =>
    dsimp only at h ⊢
    rw [Option.some.injEq] at h
    rw [h]
  | ok b =>
    cases b with
    | false => simp at h
    | true =>
      cases impl with
      | false => simp at h
      | true =>
        rw [if_pos rfl] at h ⊢
        cases p2 with
        | exn e2 =>
          dsimp only at h ⊢
          rw [Option.some.injEq] at h
          rw [h]
        | ok b2 =>
          cases b2 with
          | false => simp at h
          | true =>
            dsimp only at h ⊢
            cases p3 with
            | exn e2 =>
              dsimp only at h ⊢
              rw [Option.some.injEq] at h
              rw [h]
            | ok b3 => cases b3 <;> simp at h

/-- Every worker run reaches the empty-queue condition and returns
normally. -/
theorem observation_consumer_processedAll (impl : Bool) :
    ∀ l, (observation_consumer impl l).processedAll = true := by
  intro l
  induction l with
  | nil => rfl
  | cons x rest ih =>
    cases x with
    | mk i o =>
      unfold observation_consumer
      cases hc : consume_one impl o with
      | mk g p =>
        cases p with
        | mk f ex =>
          cases hrest : observation_consumer impl rest with
          | mk g2 f2 logs done =>
            rw [hrest] at ih
            exact ih

/-- Unfolding one worker-loop iteration. -/
theorem observation_consumer_cons (impl : Bool) (i : Nat) (o : ObsOracle)
    (rest : List (Nat × ObsOracle)) :
    observation_consumer impl ((i, o) :: rest)
      = ⟨(consume_one impl o).1 + (observation_consumer impl rest).good,
         (consume_one impl o).2.1 + (observation_consumer impl rest).failed,
         (match (consume_one impl o).2.2 with
           | some e => [(i, e)] | none => [])
           ++ (observation_consumer impl rest).loggedExceptions,
         (observation_consumer impl rest).processedAll⟩ := by
  cases hc : consume_one impl o with
  | mk g p =>
    cases p with
    | mk f ex =>
      cases hrest : observation_consumer impl rest with
      | mk g2 f2 logs done =>
        conv_lhs => rw [observation_consumer]
        rw [hc, hrest]

/-- Counters and logs of a worker run over a concatenated queue add up
componentwise. -/
theorem observation_consumer_append (impl : Bool) :
    ∀ xs ys,
      (observation_consumer impl (xs ++ ys)).good
        = (observation_consumer impl xs).good
          + (observation_consumer impl ys).good
      ∧ (observation_consumer impl (xs ++ ys)).failed
        = (observation_consumer impl xs).failed
          + (observation_consumer impl ys).failed
      ∧ (observation_consumer impl (xs ++ ys)).loggedExceptions
        = (observation_consumer impl xs).loggedExceptions
          ++ (observation_consumer impl ys).loggedExceptions := by
  intro xs ys
  induction xs with
  | nil => simp [observation_consumer]
  | cons x rest ih =>
    cases x with
    | mk i o =>
      rw [List.cons_append, observation_consumer_cons impl i o (rest ++ ys),
        observation_consumer_cons impl i o rest]
      dsimp only
      have h1 := ih.1
      have h2 := ih.2.1
      have h3 := ih.2.2
      refine ⟨by omega, by omega, ?_⟩
      rw [h3, List.append_assoc]

/-- Claim C9 (amended): an exception raised from the per-observation stages
(`process_one_observation`, the per-item processing, or
`end_of_observation`) is caught inside the worker loop, logged together with
the observation's obs_id, and the worker continues with the remaining
outer-queue items (whose counter contributions are unaffected), ending
normally when the queue is exhausted — but the failed-observations counter
is NOT incremented on the exception path (the `except` branch only logs). -/
theorem worker_failure_isolation (impl : Bool)
    (pre rest : List (Nat × ObsOracle)) (obs_id : Nat) (o : ObsOracle)
    (e : String) (hex : (consume_one impl o).2.2 = some e) :
    (obs_id, e) ∈ (observation_consumer impl
        (pre ++ (obs_id, o) :: rest)).loggedExceptions
    ∧ (observation_consumer impl (pre ++ (obs_id, o) :: rest)).good
      = (observation_consumer impl pre).good
        + (observation_consumer impl rest).good
    ∧ (observation_consumer impl (pre ++ (obs_id, o) :: rest)).failed
      = (observation_consumer impl pre).failed
        + (observation_consumer impl rest).failed
    ∧ (observation_consumer impl (pre ++ (obs_id, o) :: rest)).processedAll
      = true := by
  have hmid : observation_consumer impl ((obs_id, o) :: rest)
      = ⟨(observation_consumer impl rest).good,
         (observation_consumer impl rest).failed,
         (obs_id, e) :: (observation_consumer impl rest).loggedExceptions,
         (observation_consumer impl rest).processedAll⟩ := by
    rw [observation_consumer_cons impl obs_id o rest,
      consume_one_exn impl o e hex]
    dsimp only
    rw [Nat.zero_add, Nat.zero_add]
    rfl
  have happ := observation_consumer_append impl pre ((obs_id, o) :: rest)
  refine ⟨?_, ?_, ?_, observation_consumer_processedAll impl _⟩
  · rw [happ.2.2, hmid]
    exact List.mem_append.mpr (Or.inr (List.mem_cons_self _ _))
  · rw [happ.1, hmid]
  · rw [happ.2.1, hmid]

/-- Witness for the amended C9 at a concrete queue of three observations
whose middle one raises. -/
theorem worker_failure_isolation_witness :
    (1, "boom") ∈ (observation_consumer false
        [(7, ⟨.ok true, .ok true, .ok true⟩), (1, ⟨.exn "boom", .ok true, .ok true⟩),
         (9, ⟨.ok false, .ok true, .ok true⟩)]).loggedExceptions :=
  (worker_failure_isolation false [(7, ⟨.ok true, .ok true, .ok true⟩)]
    [(9, ⟨.ok false, .ok true, .ok true⟩)] 1 ⟨.exn "boom", .ok true, .ok true⟩
    "boom" rfl).1

/-!
### C5 — validation gate
-/

/-- Without `--force`, the discovery loop `sys.exit(0)`s as soon as some
request's `validate_obsids` call returns a non-empty ineligible list. -/
theorem generateGo_abort (validate : List Nat → List Nat)
    (filetypeOf : Nat → Option Nat) (obsIdsOf : Nat → List Nat)
    (data_files : List DataFileRow) :
    ∀ (reqs : List Nat) files drs calls,
      (∃ id ∈ reqs, validate (obsIdsOf id) ≠ []) →
      (generateGo false validate filetypeOf obsIdsOf data_files reqs
        files drs calls).outcome = PyOutcome.exited 0 := by
  intro reqs
  induction reqs with
  | nil => rintro files drs calls ⟨id, hid, -⟩; simp at hid
  | cons id0 rest ih =>
    rintro files drs calls ⟨id, hid, hne⟩
    unfold generateGo
    dsimp only
    by_cases hv : validate (obsIdsOf id0) = []
    · have hemp : (validate (obsIdsOf id0)).isEmpty = true := by
        rw [hv]; rfl
      rw [if_neg (by simp [hemp])]
      apply ih
      rcases List.mem_cons.mp hid with rfl | hmem
      · exact absurd hv hne
      · exact ⟨id, hmem, hne⟩
    · have hemp : (validate (obsIdsOf id0)).isEmpty = false := by
        cases hq : validate (obsIdsOf id0) with
        | nil => exact absurd hq hv
        | cons a l => rfl
      rw [if_pos (by simp [hemp])]

/-- The trace of `validate_obsids` calls made by discovery is one call per
processed request, in order, each carrying that request's whole obs_id
list. -/
theorem generateGo_calls (force : Bool) (validate : List Nat → List Nat)
    (filetypeOf : Nat → Option Nat) (obsIdsOf : Nat → List Nat)
    (data_files : List DataFileRow) :
    ∀ (reqs : List Nat) files drs calls,
      ∃ m, m ≤ reqs.length ∧
        (generateGo force validate filetypeOf obsIdsOf data_files reqs
          files drs calls).validate_calls
        = calls ++ (reqs.take m).map (fun id => obsIdsOf id) := by
  intro reqs
  induction reqs with
  | nil =>
    intro files drs calls
    exact ⟨0, Nat.le_refl 0, by simp [generateGo]⟩
  | cons id0 rest ih =>
    intro files drs calls
    unfold generateGo
    dsimp only
    by_cases hc : (!(validate (obsIdsOf id0)).isEmpty && !force) = true
    · rw [if_pos hc]
      exact ⟨1, by simp, by simp⟩
    · rw [if_neg hc]
      obtain ⟨m, hm, heq⟩ := ih
        ((obsIdsOf id0).foldl
          (fun fs obs => addObsFiles fs
            (get_not_deleted_obs_data_files_except_ppds data_files obs
              (filetypeOf id0)))
          files)
        (drs ++ [(id0, obsIdsOf id0)]) (calls ++ [obsIdsOf id0])
      refine ⟨m + 1, by simp only [List.length_cons]; omega, ?_⟩
      rw [heq, List.take_succ_cons, List.map_cons, List.append_assoc]
      rfl

/-- With `--force`, discovery never aborts: every request is validated (one
webservice call per request) and processing continues. -/
theorem generateGo_force (validate : List Nat → List Nat)
    (filetypeOf : Nat → Option Nat) (obsIdsOf : Nat → List Nat)
    (data_files : List DataFileRow) :
    ∀ (reqs : List Nat) files drs calls,
      (generateGo true validate filetypeOf obsIdsOf data_files reqs
        files drs calls).outcome = PyOutcome.normal
      ∧ (generateGo true validate filetypeOf obsIdsOf data_files reqs
          files drs calls).validate_calls
        = calls ++ reqs.map (fun id => obsIdsOf id) := by
  intro reqs
  induction reqs with
  | nil => intro files drs calls; exact ⟨rfl, by simp [generateGo]⟩
  | cons id0 rest ih =>
    intro files drs calls
    unfold generateGo
    dsimp only
    rw [if_neg (by simp)]
    obtain ⟨h1, h2⟩ := ih
      ((obsIdsOf id0).foldl
        (fun fs obs => addObsFiles fs
          (get_not_deleted_obs_data_files_except_ppds data_files obs
            (filetypeOf id0)))
        files)
      (drs ++ [(id0, obsIdsOf id0)]) (calls ++ [obsIdsOf id0])
    refine ⟨h1, ?_⟩
    rw [h2, List.map_cons, List.append_assoc]
    rfl

/-- Counterexample for C5 as stated: when `validate_obsids` reports an
ineligible obs_id and `--force` is absent, the run aborts during discovery
via `sys.exit(0)` — the process exit code is 0, not non-zero as the claim
says. -/
theorem validation_abort_exit_code_is_zero :
    (delete_processor_run false false 1 0 (fun _ => [1234567890])
      (fun _ => none) (fun _ => [1234567890])
      (fun _ _ _ => Except.ok ([], [])) [1] []).outcome
      = PyOutcome.exited 0 := by
  rfl

/-- Claim C5 (amended): if `validate_obsids` returns a non-empty ineligible
list for some delete request and `--force` is not set, the whole run aborts
during discovery — before any storage delete call and with the catalog
untouched — but via `sys.exit(0)`, i.e. with process exit code 0 (not
non-zero); with `--force` set, discovery never aborts and every request is
still processed.  Validation is called exactly once per processed delete
request, with the request's whole obs_id list. -/
theorem validation_gate_fail_closed (dry_run : Bool) (batchSize now : Nat)
    (validate : List Nat → List Nat) (filetypeOf : Nat → Option Nat)
    (obsIdsOf : Nat → List Nat)
    (storage : Nat → String → List String → Except String (List String × List Nat))
    (request_ids : List Nat) (data_files : List DataFileRow)
    (hbad : ∃ id ∈ request_ids, validate (obsIdsOf id) ≠ []) :
    (delete_processor_run false dry_run batchSize now validate filetypeOf
        obsIdsOf storage request_ids data_files).outcome = PyOutcome.exited 0
    ∧ (delete_processor_run false dry_run batchSize now validate filetypeOf
        obsIdsOf storage request_ids data_files).storage_calls = []
    ∧ (delete_processor_run false dry_run batchSize now validate filetypeOf
        obsIdsOf storage request_ids data_files).data_files = data_files
    ∧ (∃ m, m ≤ request_ids.length ∧
        (delete_processor_run false dry_run batchSize now validate filetypeOf
          obsIdsOf storage request_ids data_files).validate_calls
        = (request_ids.take m).map (fun id => obsIdsOf id))
    ∧ (∀ validate2 : List Nat → List Nat,
        (generate_data_structures true validate2 filetypeOf obsIdsOf
          data_files request_ids).outcome = PyOutcome.normal
        ∧ (generate_data_structures true validate2 filetypeOf obsIdsOf
            data_files request_ids).validate_calls
          = request_ids.map (fun id => obsIdsOf id)) := by
  have hd : (generate_data_structures false validate filetypeOf obsIdsOf
      data_files request_ids).outcome = PyOutcome.exited 0 :=
    generateGo_abort validate filetypeOf obsIdsOf data_files request_ids
      [] [] [] hbad
  have hrun : delete_processor_run false dry_run batchSize now validate
      filetypeOf obsIdsOf storage request_ids data_files
      = ⟨PyOutcome.exited 0, data_files, [], 0, [],
          (generate_data_structures false validate filetypeOf obsIdsOf
            data_files request_ids).validate_calls, []⟩ := by
    unfold delete_processor_run
    dsimp only
    rw [hd]
  rw [hrun]
  refine ⟨rfl, rfl, rfl, ?_, ?_⟩
  · obtain ⟨m, hm, heq⟩ := generateGo_calls false validate filetypeOf obsIdsOf
      data_files request_ids [] [] []
    exact ⟨m, hm, by
      dsimp only
      unfold generate_data_structures
      rw [heq]
      simp⟩
  · intro validate2
    have := generateGo_force validate2 filetypeOf obsIdsOf data_files
      request_ids [] [] []
    unfold generate_data_structures
    exact ⟨this.1, by rw [this.2]; simp⟩

/-- Witness for the amended C5: a concrete aborted run makes no storage
delete call. -/
theorem validation_gate_fail_closed_witness :
    (delete_processor_run false false 1 0 (fun _ => [1234567890])
      (fun _ => none) (fun _ => [1234567890])
      (fun _ _ _ => Except.ok ([], [])) [1] []).storage_calls = [] :=
  (validation_gate_fail_closed false 1 0 (fun _ => [1234567890])
    (fun _ => none) (fun _ => [1234567890])
    (fun _ _ _ => Except.ok ([], [])) [1] []
    ⟨1, by decide, by decide⟩).2.1
